import Mathlib

/-!
Verification of the BrFin report-construction core (brfinance/finance.py,
brfinance/corporation.py, brfin/company.py) against its natural-language
specification.

The pandas code is shallowly embedded: a DataFrame of accounting facts
becomes a `List Fact`; `df.query`-filters become `List.filter`;
`df.sort_values` on several keys (pandas uses a stable lexsort for
multi-key sorts) becomes `List.insertionSort` (which is stable) on the
lexicographic comparator; `drop_duplicates(keep='last'/'first')` become
explicit deduplication functions; pandas `NaT` is `Option.none` together
with comparison operators that treat `none` as incomparable (every
comparison involving `NaT` is false, including `NaT == NaT`); account
values are rationals except in the ratio engine, where IEEE special
values (`nan`, signed infinities) are modelled explicitly because the
claims under scrutiny are about them.  In-place mutation of a caller's
frame (`inplace=True` on an argument) is modelled by state passing: the
mutating function returns the post-state of its argument alongside its
return value.
-/

namespace BrFin

/-- Calendar date, compared lexicographically on (year, month, day),
mirroring the order on pandas timestamps. -/
structure Date where
  y : Nat
  m : Nat
  d : Nat
deriving DecidableEq, Repr

/-- Strict order on dates: lexicographic on (year, month, day). -/
def dateLtB (a b : Date) : Bool :=
  a.y < b.y || (a.y == b.y && (a.m < b.m || (a.m == b.m && a.d < b.d)))

/-- Non-strict order on dates. -/
def dateLeB (a b : Date) : Bool :=
  dateLtB a b || a == b

/-- The `pd.DateOffset(years=1)` subtraction: one year earlier, with the
Feb-29 → Feb-28 clamp pandas applies when the target year is not a leap
year. -/
def Date.subYear (a : Date) : Date :=
  let y := a.y - 1
  if a.m = 2 ∧ a.d = 29 ∧ ¬ (y % 4 = 0 ∧ (y % 100 ≠ 0 ∨ y % 400 = 0)) then
    ⟨y, 2, 28⟩
  else
    ⟨y, a.m, a.d⟩

/-- Maximum of a list of dates; `none` plays the role of pandas `NaT`
(the max of an empty column). -/
def dmax (l : List Date) : Option Date :=
  l.foldl (fun acc x =>
    match acc with
    | none => some x
    | some m => some (if dateLtB m x then x else m)) none

/-- Minimum of a list of dates, `none` for the empty list. -/
def dmin (l : List Date) : Option Date :=
  l.foldl (fun acc x =>
    match acc with
    | none => some x
    | some m => some (if dateLtB x m then x else m)) none

/-- Pandas comparison `a > b` lifted to possibly-`NaT` operands: any
comparison involving `NaT` is false. -/
def optGtB : Option Date → Option Date → Bool
  | some a, some b => dateLtB b a
  | _, _ => false

/-- Pandas equality against a possibly-`NaT` value: `NaT == x` and
`x == NaT` are false, including `NaT == NaT`. -/
def optEqB : Option Date → Option Date → Bool
  | some a, some b => a == b
  | _, _ => false

/-- Pandas comparison `a >= b` on possibly-`NaT` operands: false when
either side is `NaT`. -/
def optGeB : Option Date → Option Date → Bool
  | some a, some b => dateLeB b a
  | _, _ => false

/-- Lexicographic strict comparison of character lists by code point,
as Python compares strings. -/
def charListLtB : List Char → List Char → Bool
  | [], [] => false
  | [], _ :: _ => true
  | _ :: _, [] => false
  | a :: as, b :: bs => a.toNat < b.toNat || (a.toNat == b.toNat && charListLtB as bs)

/-- Lexicographic non-strict comparison of character lists. -/
def charListLeB : List Char → List Char → Bool
  | [], _ => true
  | _ :: _, [] => false
  | a :: as, b :: bs => a.toNat < b.toNat || (a.toNat == b.toNat && charListLeB as bs)

/-- Python string `<=` (lexicographic by code point); in Lean 4.14 a
string is a structure holding its character list. -/
def strLeB (a b : String) : Bool := charListLeB a.data b.data

/-- Python `str.startswith`, on character lists. -/
def listPrefB : List Char → List Char → Bool
  | [], _ => true
  | _ :: _, [] => false
  | a :: as, b :: bs => a == b && listPrefB as bs

/-- Python `s.startswith(pre)`. -/
def strStartsWith (s pre : String) : Bool := listPrefB pre.data s.data

/-- Split a character list at `'.'` separators. -/
def splitDot : List Char → List Char → List (List Char)
  | [], cur => [cur.reverse]
  | c :: cs, cur =>
    if c = '.' then cur.reverse :: splitDot cs [] else splitDot cs (c :: cur)

/-- The dot-separated segments of an account code, as the specification
describes them. -/
def segStrings (s : String) : List String := (splitDot s.data []).map String.mk

/-- Numeric value of a decimal-digit segment. -/
def segVal (t : String) : Nat := t.data.foldl (fun n c => 10 * n + (c.toNat - 48)) 0

/-- Lexicographic comparison of numeric segment lists, the segment-wise
numeric code order the specification claims report rows follow. -/
def natSegLtB : List Nat → List Nat → Bool
  | [], [] => false
  | [], _ :: _ => true
  | _ :: _, [] => false
  | a :: as, b :: bs => a < b || (a == b && natSegLtB as bs)

/-- Numeric, segment-wise strict order on account-code strings. -/
def codeNumLtB (a b : String) : Bool :=
  natSegLtB ((segStrings a).map segVal) ((segStrings b).map segVal)

/-- Rebuild an account code from its segments, interposing dots.  This
is the specification-side constructor of "dot-separated" codes. -/
def joinCode : List String → String
  | [] => ""
  | [s] => s
  | s :: rest => s ++ "." ++ joinCode rest

/-- A well-formed regulator account code, segment-wise: a leading
one-character statement-type segment followed by two-character nested
segments (`X`, `X.YY`, `X.YY.ZZ`, ...). -/
def wfSegs : List String → Prop
  | [] => False
  | h :: t => h.length = 1 ∧ ∀ s ∈ t, s.length = 2

/-- Helper for `drop_duplicates(keep='first')`: keep an element when its
key has not been seen among earlier elements. -/
def dkfAux (key : α → β) [DecidableEq β] (seen : List β) : List α → List α
  | [] => []
  | x :: xs =>
    if key x ∈ seen then dkfAux key seen xs
    else x :: dkfAux key (key x :: seen) xs

/-- Pandas `drop_duplicates(keep='first')` under a key function: retain
the first occurrence of every key, in order. -/
def dedupKeepFirst (key : α → β) [DecidableEq β] (l : List α) : List α :=
  dkfAux key [] l

/-- Pandas `drop_duplicates(keep='last')` under a key function: an
element is retained when no later element carries the same key; the
retained rows keep their original relative order. -/
def dedupKeepLast (key : α → β) [DecidableEq β] : List α → List α
  | [] => []
  | x :: xs =>
    if xs.any (fun y => key y == key x) then dedupKeepLast key xs
    else x :: dedupKeepLast key xs

/-- The `report_type` column.  The source stores the strings `annual`
and `quarterly`; `Finance.calculate_ltm` additionally writes `ltm` into
reconstructed rows. -/
inductive ReportType
  | annual
  | quarterly
  | ltm
deriving DecidableEq, Repr

/-- One row of the fact table (one account value for one company,
period and statement version), after `Finance._set_main_df`'s `astype`
conversions.  `report_version` is kept as a string, as the source's
`astype({'report_version': str})` does; `period_begin` may be `NaT`. -/
structure Fact where
  report_type : ReportType
  report_version : String
  period_reference : Date
  period_begin : Option Date
  period_end : Date
  period_order : Int
  account_code : String
  account_name : String
  account_basis : String
  account_fixed : Bool
  account_value : ℚ
deriving DecidableEq, Repr

/-- The basis/period scope filter of `Corporation.report`
(`accounting_basis == @accounting_basis and period_end >= @first_period`).
A `none` bound reproduces the pandas behaviour of comparing against
`NaT`: nothing passes. -/
def scopeFilter (accounting_basis : String) (first_period : Option Date)
    (df : List Fact) : List Fact :=
  df.filter (fun f =>
    f.account_basis == accounting_basis && optGeB (some f.period_end) first_period)

/-- The unit conversion of `Corporation.report` / `Finance._get_company_df`:
`np.where(df['account_code'].str.startswith('3.99'), df['account_value'],
df['account_value'] / unit)`. -/
def applyUnit (unit : ℚ) (df : List Fact) : List Fact :=
  df.map (fun f =>
    if strStartsWith f.account_code "3.99" then f
    else { f with account_value := f.account_value / unit })

/-- The account-level filter of `Corporation.report`: for a requested
level `L` keep codes whose string length is at most `3*L - 2`
(`account_code_limit = account_level * 3 - 2`); `None` keeps all. -/
def levelFilter (account_level : Option Nat) (df : List Fact) : List Fact :=
  match account_level with
  | none => df
  | some L => df.filter (fun f => f.account_code.length ≤ 3 * L - 2)

/-- The validation errors `Corporation.report` raises while checking its
arguments. -/
inductive RepErr
  | badDate
  | badBasis
  | badUnit
  | badLevel
deriving DecidableEq, Repr

/-- The argument checking at the top of `Corporation.report`, in source
order.  `parsed_first_period` is the result of
`pd.to_datetime(first_period, errors='coerce')` (`none` = `NaT` for an
unparseable string), and the first test embeds the source's
`first_period == pd.NaT`, which pandas evaluates with `NaT`-semantics:
it is false even when both sides are `NaT`. -/
def report_validate (parsed_first_period : Option Date) (accounting_basis : String)
    (unit : ℚ) (account_level : Option Nat) : Except RepErr (Option Date) :=
  if optEqB parsed_first_period none then .error .badDate
  else if !(accounting_basis == "consolidated" || accounting_basis == "separate") then
    .error .badBasis
  else if unit ≤ 0 then .error .badUnit
  else if !(account_level == none || account_level == some 2 ||
            account_level == some 3 || account_level == some 4) then
    .error .badLevel
  else .ok parsed_first_period

/-- The filter `df_flow.query('report_type == "annual"')`. -/
def annual_rows (df : List Fact) : List Fact :=
  df.filter (fun f => f.report_type == ReportType.annual)

/-- The value `df_flow.query('report_type == "annual"')['period_end'].max()`. -/
def latest_annual (df : List Fact) : Option Date :=
  dmax ((annual_rows df).map (·.period_end))

/-- The value `df_flow.query('report_type == "quarterly"')['period_end'].max()`. -/
def latest_quarterly (df : List Fact) : Option Date :=
  dmax ((df.filter (fun f => f.report_type == ReportType.quarterly)).map (·.period_end))

/-- The filter `rows.query('period_begin == period_begin.min()')`: keep the rows
whose `period_begin` equals the column minimum; rows with `NaT`
`period_begin` never compare equal, and when the column has no
non-`NaT` entry nothing passes. -/
def minBeginFilter (rows : List Fact) : List Fact :=
  match dmin (rows.filterMap (·.period_begin)) with
  | none => []
  | some m => rows.filter (fun f => f.period_begin == some m)

/-- Set `df1` of `Finance.calculate_ltm`: the current-quarter rows
(`period_end == @last_quarterly`) restricted to the earliest
`period_begin` (the year-to-date version). -/
def df1_of (df : List Fact) : List Fact :=
  minBeginFilter (df.filter (fun f => optEqB (some f.period_end) (latest_quarterly df)))

/-- Set `df2` of `Finance.calculate_ltm`: the comparative rows filed with
the current quarterly report (`period_reference == @last_quarterly`,
earliest `period_begin`), with `account_value` negated. -/
def df2_of (df : List Fact) : List Fact :=
  (minBeginFilter (df.filter
      (fun f => optEqB (some f.period_reference) (latest_quarterly df)))).map
    (fun f => { f with account_value := -f.account_value })

/-- Set `df3` of `Finance.calculate_ltm`: the rows of the latest annual
period (`period_end == @last_annual`). -/
def df3_of (df : List Fact) : List Fact :=
  df.filter (fun f => optEqB (some f.period_end) (latest_annual df))

/-- The `(account_code, account_value)` projection of the concatenation
`pd.concat([df1, df2, df3])`. -/
def concat_pairs (df : List Fact) : List (String × ℚ) :=
  (df1_of df ++ df2_of df ++ df3_of df).map (fun f => (f.account_code, f.account_value))

/-- Sum of the values carried by one account code in a code/value list. -/
def sumAt (c : String) (l : List (String × ℚ)) : ℚ :=
  ((l.filter (fun p => p.1 == c)).map Prod.snd).sum

/-- String order as a relation usable by `List.insertionSort`. -/
def strLe (a b : String) : Prop := strLeB a b = true

instance : DecidableRel strLe := fun a b =>
  inferInstanceAs (Decidable (strLeB a b = true))

/-- The distinct keys of a code/value list, ascending, as
`groupby(by='account_code')` orders its groups. -/
def sortedKeys (l : List (String × ℚ)) : List String :=
  dedupKeepFirst id (List.insertionSort strLe (l.map Prod.fst))

/-- The aggregation `df_ltm.groupby(by='account_code').sum().reset_index()`: one row per
distinct code, carrying the group sum, keys ascending. -/
def groupSum (l : List (String × ℚ)) : List (String × ℚ) :=
  (sortedKeys l).map (fun c => (c, sumAt c l))

/-- The join `pd.merge(df1, df_ltm)` after `df1.drop(columns='account_value')`:
an inner join on `account_code` (the only shared column), preserving
the left frame's order; each left row is paired with every matching
right row's group sum. -/
def merge_df1 (df1 : List Fact) (gs : List (String × ℚ)) : List Fact :=
  df1.flatMap (fun f =>
    (gs.filter (fun p => p.1 == f.account_code)).map
      (fun p => { f with account_value := p.2 }))

/-- The reconstructed rows built in the second half of
`Finance.calculate_ltm`: the merged frame with `report_type = 'ltm'`
and `period_begin = last_quarterly - DateOffset(years=1)`. -/
def ltm_rows (df : List Fact) : List Fact :=
  (merge_df1 (df1_of df) (groupSum (concat_pairs df))).map
    (fun f => { f with report_type := ReportType.ltm,
                       period_begin := (latest_quarterly df).map Date.subYear })

/-- Embedding of `Finance.calculate_ltm` in state-passing form.  The first component
is the caller's `df_flow` after the call: both branches run
`df_flow.query('report_type == "annual"', inplace=True)` on the
caller's frame, so the argument ends up filtered to its annual rows.
The second component is the returned frame. -/
def calculate_ltmS (df_flow : List Fact) : List Fact × List Fact :=
  if optGtB (latest_annual df_flow) (latest_quarterly df_flow) then
    (annual_rows df_flow, annual_rows df_flow)
  else
    (annual_rows df_flow, annual_rows df_flow ++ ltm_rows df_flow)

/-- The return value of `Finance.calculate_ltm`. -/
def calculate_ltm (df_flow : List Fact) : List Fact :=
  (calculate_ltmS df_flow).2

/-- The specification-side year-to-date quarterly contribution `Q` of
one account code: the summed `df1` values of that code (zero when the
code is absent from `df1`). -/
def Qsum (df : List Fact) (c : String) : ℚ :=
  sumAt c ((df1_of df).map (fun f => (f.account_code, f.account_value)))

/-- The specification-side comparative contribution `C` of one account
code: the summed prior-year-to-date values filed with the latest
quarterly report, before negation (zero when absent). -/
def Csum (df : List Fact) (c : String) : ℚ :=
  sumAt c ((minBeginFilter (df.filter
      (fun f => optEqB (some f.period_reference) (latest_quarterly df)))).map
    (fun f => (f.account_code, f.account_value)))

/-- The specification-side annual contribution `A` of one account code:
the summed latest-annual values (zero when absent). -/
def Asum (df : List Fact) (c : String) : ℚ :=
  sumAt c ((df3_of df).map (fun f => (f.account_code, f.account_value)))

/-- The three-key lexicographic comparator behind
`df.sort_values(['period_end', 'period_reference', 'account_code'])` in
`Finance._make_report` (note: `report_version` is not among the keys). -/
def le3B (f g : Fact) : Bool :=
  dateLtB f.period_end g.period_end ||
  (f.period_end == g.period_end &&
    (dateLtB f.period_reference g.period_reference ||
     (f.period_reference == g.period_reference && strLeB f.account_code g.account_code)))

/-- Comparator `le3B` as a relation for `List.insertionSort`. -/
def le3 (f g : Fact) : Prop := le3B f g = true

instance : DecidableRel le3 := fun f g =>
  inferInstanceAs (Decidable (le3B f g = true))

/-- The stable multi-key sort
`df.sort_values(['period_end', 'period_reference', 'account_code'])`
(pandas multi-key sorts use a stable lexsort). -/
def sort_values3 (df : List Fact) : List Fact := List.insertionSort le3 df

/-- The key `df['financial_year'] = df.period_end.dt.year` paired with the
account code: the `drop_duplicates` subset of `Finance._make_report`. -/
def year_code (f : Fact) : Nat × String := (f.period_end.y, f.account_code)

/-- The row-index triple `['account_name', 'account_code',
'account_fixed']` of the report builder. -/
structure RowMeta where
  account_name : String
  account_code : String
  account_fixed : Bool
deriving DecidableEq, Repr

/-- Project a fact onto the row-index triple. -/
def tripleOf (f : Fact) : RowMeta :=
  ⟨f.account_name, f.account_code, f.account_fixed⟩

/-- The first half of `Finance._make_report`: keep annual rows plus the
rows of the globally latest `period_end`, sort on
`(period_end, period_reference, account_code)`, then
`drop_duplicates(subset=['financial_year', 'account_code'],
keep='last')`. -/
def dedup_stage (df0 : List Fact) : List Fact :=
  let lastEnd := dmax (df0.map (·.period_end))
  let dfA := df0.filter (fun f =>
    f.report_type == ReportType.annual || optEqB (some f.period_end) lastEnd)
  dedupKeepLast year_code (sort_values3 dfA)

/-- The wide report: one column per retained `period_end` and one row
per retained row-index triple, each row carrying one optional value per
column (`none` = the NaN a failed left-join leaves behind). -/
structure Report where
  cols : List Date
  rows : List (RowMeta × List (Option ℚ))
deriving Repr

/-- One iteration of the merge loop of `Finance._make_report`:
left-join the accumulated frame with the facts of one period on the
row-index triple (the columns shared by `df_report` and `df_year`).
A left row with no match gains a `none` cell; otherwise it is repeated
once per matching right row. -/
def merge_step (D : List Fact) (acc : List (RowMeta × List (Option ℚ))) (p : Date) :
    List (RowMeta × List (Option ℚ)) :=
  let df_year := D.filter (fun f => f.period_end == p)
  acc.flatMap (fun r =>
    let ms := df_year.filter (fun f => tripleOf f == r.1)
    if ms.isEmpty then [(r.1, r.2 ++ [none])]
    else ms.map (fun f => (r.1, r.2 ++ [some f.account_value])))

/-- Order on report rows used by the final
`df_report.sort_values('account_code')`: plain string comparison of the
account code. -/
def rowLe (r s : RowMeta × List (Option ℚ)) : Prop :=
  strLeB r.1.account_code s.1.account_code = true

instance : DecidableRel rowLe := fun r s =>
  inferInstanceAs (Decidable (strLeB r.1.account_code s.1.account_code = true))

/-- The column list of the report: `df.period_end.unique()` in order of
first appearance over the deduplicated frame. -/
def report_cols (df0 : List Fact) : List Date :=
  dedupKeepFirst id ((dedup_stage df0).map (fun f => f.period_end))

/-- The initial row index of the report:
`df.loc[:, base_columns].drop_duplicates()` (keep-first), with an empty
value list per row. -/
def report_rows0 (df0 : List Fact) : List (RowMeta × List (Option ℚ)) :=
  (dedupKeepFirst id ((dedup_stage df0).map tripleOf)).map
    (fun t => (t, ([] : List (Option ℚ))))

/-- The merge loop of `Finance._make_report`: one left-join per retained
period. -/
def report_merged (df0 : List Fact) : List (RowMeta × List (Option ℚ)) :=
  (report_cols df0).foldl (merge_step (dedup_stage df0)) (report_rows0 df0)

/-- Embedding of `Finance._make_report`: deduplicate, build the distinct row-index
triples, left-join one value column per period in `period_end.unique()`
order, and sort rows by plain string `account_code`. -/
def make_report (df0 : List Fact) : Report :=
  { cols := report_cols df0, rows := List.insertionSort rowLe (report_merged df0) }

/-- Modelled from the spec: the four-key comparator §4.2 describes,
`(period_end, period_reference, account_code, report_version)` with the
report version compared numerically. -/
def le4B (f g : Fact) : Bool :=
  dateLtB f.period_end g.period_end ||
  (f.period_end == g.period_end &&
    (dateLtB f.period_reference g.period_reference ||
     (f.period_reference == g.period_reference &&
       (codeNumLtB f.account_code g.account_code ||
        (f.account_code == g.account_code &&
          segVal f.report_version ≤ segVal g.report_version)))))

/-- Comparator `le4B` as a relation. -/
def le4 (f g : Fact) : Prop := le4B f g = true

instance : DecidableRel le4 := fun f g =>
  inferInstanceAs (Decidable (le4B f g = true))

/-- Modelled from the spec: §4.2's deduplicator, which sorts ascending
by `(period_end, period_reference, account_code, report_version)` and
keeps the last row per `(financial_year, account_code)` group. -/
def dedup_spec (df0 : List Fact) : List Fact :=
  let lastEnd := dmax (df0.map (·.period_end))
  let dfA := df0.filter (fun f =>
    f.report_type == ReportType.annual || optEqB (some f.period_end) lastEnd)
  dedupKeepLast year_code (List.insertionSort le4 dfA)

/-- A float cell of the ratio engine.  The reports' "no data" marker is
NaN; numpy division produces signed infinities for a nonzero value
divided by zero, and those propagate exactly as modelled here, so the
IEEE special values are represented explicitly (finite values idealised
as rationals). -/
inductive Val
  | num (q : ℚ)
  | nan
  | pinf
  | ninf
deriving DecidableEq, Repr

/-- IEEE-754 division as numpy performs it on float cells: `x / 0` is a
signed infinity for nonzero finite `x`, `0 / 0` is NaN, and NaN
propagates. -/
def Val.div : Val → Val → Val
  | _, .nan => .nan
  | .nan, _ => .nan
  | .num a, .num b =>
    if b ≠ 0 then .num (a / b)
    else if a = 0 then .nan
    else if 0 < a then .pinf
    else .ninf
  | .num _, .pinf => .num 0
  | .num _, .ninf => .num 0
  | .pinf, .num b => if 0 ≤ b then .pinf else .ninf
  | .ninf, .num b => if 0 ≤ b then .ninf else .pinf
  | .pinf, .pinf => .nan
  | .pinf, .ninf => .nan
  | .ninf, .pinf => .nan
  | .ninf, .ninf => .nan

/-- IEEE-754 multiplication on float cells. -/
def Val.mul : Val → Val → Val
  | _, .nan => .nan
  | .nan, _ => .nan
  | .num a, .num b => .num (a * b)
  | .num a, .pinf => if 0 < a then .pinf else if a < 0 then .ninf else .nan
  | .pinf, .num a => if 0 < a then .pinf else if a < 0 then .ninf else .nan
  | .num a, .ninf => if 0 < a then .ninf else if a < 0 then .pinf else .nan
  | .ninf, .num a => if 0 < a then .ninf else if a < 0 then .pinf else .nan
  | .pinf, .pinf => .pinf
  | .pinf, .ninf => .ninf
  | .ninf, .pinf => .ninf
  | .ninf, .ninf => .pinf

/-- IEEE-754 addition on float cells. -/
def Val.add : Val → Val → Val
  | _, .nan => .nan
  | .nan, _ => .nan
  | .num a, .num b => .num (a + b)
  | .num _, .pinf => .pinf
  | .pinf, .num _ => .pinf
  | .num _, .ninf => .ninf
  | .ninf, .num _ => .ninf
  | .pinf, .pinf => .pinf
  | .ninf, .ninf => .ninf
  | .pinf, .ninf => .nan
  | .ninf, .pinf => .nan

/-- IEEE-754 negation on float cells. -/
def Val.neg : Val → Val
  | .num a => .num (-a)
  | .nan => .nan
  | .pinf => .ninf
  | .ninf => .pinf

/-- Subtraction on float cells. -/
def Val.sub (a b : Val) : Val := a.add b.neg

/-- Elementwise addition of two period-indexed series (pandas aligns on
the shared column index). -/
def sAdd (a b : List Val) : List Val := List.zipWith Val.add a b

/-- Elementwise subtraction of two period-indexed series. -/
def sSub (a b : List Val) : List Val := List.zipWith Val.sub a b

/-- Elementwise division of two period-indexed series. -/
def sDiv (a b : List Val) : List Val := List.zipWith Val.div a b

/-- A series multiplied by a scalar, elementwise. -/
def sScale (c : Val) (s : List Val) : List Val := s.map (fun v => Val.mul v c)

/-- The fixed effective tax rate `TAX_RATE = 0.34` of the source. -/
def TAX_RATE : ℚ := 34 / 100

/-- The scalar `1 - TAX_RATE` applied to EBIT. -/
def one_minus_tax : Val := Val.num (1 - TAX_RATE)

/-- Embedding of `Finance.shift_right`: when the flag is on, drop the last value and
prepend NaN (`np.append(np.nan, s.iloc[:-1])`), so each period reads
the prior period's balance. -/
def shift_right (is_on : Bool) (s : List Val) : List Val :=
  if is_on then Val.nan :: s.dropLast else s

/-- The report rows `Finance.operating_performance` reads out of the
assembled assets / liabilities-and-equity / income reports, one
period-indexed series per account code. -/
structure OpInput where
  r3_01 : List Val
  r3_03 : List Val
  r3_05 : List Val
  r3_11 : List Val
  r1 : List Val
  r2_03 : List Val
  r2_01_04 : List Val
  r2_02_01 : List Val
  r1_01_01 : List Val
  r1_01_02 : List Val

/-- The six indicator rows the ratio engine appends. -/
structure OpOut where
  return_on_assets : List Val
  return_on_capital : List Val
  return_on_equity : List Val
  gross_margin : List Val
  operating_margin : List Val
  net_margin : List Val

/-- Series `invested_capital` before shifting:
`2.03 + 2.01.04 + 2.02.01 - 1.01.01 - 1.01.02`. -/
def invested_capital_series (inp : OpInput) : List Val :=
  sSub (sSub (sAdd (sAdd inp.r2_03 inp.r2_01_04) inp.r2_02_01) inp.r1_01_01) inp.r1_01_02

/-- The indicator block of `Finance.operating_performance`: the six
derived series computed from the input rows, with balance-sheet series
optionally shifted right. -/
def operating_performance (inp : OpInput) (is_on : Bool) : OpOut :=
  let total_assets := shift_right is_on inp.r1
  let equity := shift_right is_on inp.r2_03
  let invested_capital := shift_right is_on (invested_capital_series inp)
  { return_on_assets := sDiv (sScale one_minus_tax inp.r3_05) total_assets,
    return_on_capital := sDiv (sScale one_minus_tax inp.r3_05) invested_capital,
    return_on_equity := sDiv inp.r3_11 equity,
    gross_margin := sDiv inp.r3_03 inp.r3_01,
    operating_margin := sDiv (sScale one_minus_tax inp.r3_05) inp.r3_01,
    net_margin := sDiv inp.r3_11 inp.r3_01 }

/-- Fact constructor with the fields the claims vary; basis is
consolidated, `period_order` 0, `account_fixed` true. -/
def mkFact (rt : ReportType) (ver : String) (pref : Date) (pb : Option Date)
    (pe : Date) (code : String) (name : String) (v : ℚ) : Fact :=
  { report_type := rt, report_version := ver, period_reference := pref,
    period_begin := pb, period_end := pe, period_order := 0,
    account_code := code, account_name := name,
    account_basis := "consolidated", account_fixed := true, account_value := v }

/-- C1 fixture: the latest quarterly report (2022-Q2 year-to-date). -/
def c1_q : Fact :=
  mkFact .quarterly "1" ⟨2022, 6, 30⟩ (some ⟨2022, 1, 1⟩) ⟨2022, 6, 30⟩
    "6.01" "Caixa Operacional" 600

/-- C1 fixture: the prior-year comparative filed with the 2022-Q2
report. -/
def c1_c : Fact :=
  mkFact .quarterly "1" ⟨2022, 6, 30⟩ (some ⟨2021, 1, 1⟩) ⟨2021, 6, 30⟩
    "6.01" "Caixa Operacional" 450

/-- C1 fixture: the latest annual value of code 6.01. -/
def c1_a : Fact :=
  mkFact .annual "1" ⟨2021, 12, 31⟩ (some ⟨2021, 1, 1⟩) ⟨2021, 12, 31⟩
    "6.01" "Caixa Operacional" 1000

/-- C1 fixture: a code present only in the annual filing. -/
def c1_a2 : Fact :=
  mkFact .annual "1" ⟨2021, 12, 31⟩ (some ⟨2021, 1, 1⟩) ⟨2021, 12, 31⟩
    "6.02" "Caixa Investimento" 77

/-- C1 fixture: a flow-statement fact set whose latest quarterly period
is newer than the latest annual period. -/
def c1_input : List Fact := [c1_q, c1_c, c1_a, c1_a2]

/-- C2 fixture: annual row whose period end coincides with the latest
quarterly period end. -/
def c2_a : Fact :=
  mkFact .annual "1" ⟨2021, 12, 31⟩ (some ⟨2021, 1, 1⟩) ⟨2021, 12, 31⟩
    "3.01" "Receita" 100

/-- C2 fixture: quarterly row with the same period end as the annual
one. -/
def c2_q : Fact :=
  mkFact .quarterly "1" ⟨2021, 12, 31⟩ (some ⟨2021, 10, 1⟩) ⟨2021, 12, 31⟩
    "3.01" "Receita" 60

/-- C2 fixture: equal latest annual and latest quarterly period ends. -/
def c2_input : List Fact := [c2_a, c2_q]

/-- C2 witness fixture: an annual filing strictly newer than the latest
quarterly one. -/
def c2w_a : Fact :=
  mkFact .annual "1" ⟨2022, 12, 31⟩ (some ⟨2022, 1, 1⟩) ⟨2022, 12, 31⟩
    "3.01" "Receita" 500

/-- C2 witness fixture: a stale quarterly row. -/
def c2w_q : Fact :=
  mkFact .quarterly "1" ⟨2022, 6, 30⟩ (some ⟨2022, 1, 1⟩) ⟨2022, 6, 30⟩
    "3.01" "Receita" 240

/-- C2 witness fixture input. -/
def c2w_input : List Fact := [c2w_a, c2w_q]

/-- C3 fixture: the later-filed version 2 of account 1.01 for
2020-12-31, listed first in the fact table. -/
def c3_v2 : Fact :=
  mkFact .annual "2" ⟨2020, 12, 31⟩ (some ⟨2020, 1, 1⟩) ⟨2020, 12, 31⟩
    "1.01" "Ativo Circulante" 520

/-- C3 fixture: the original version 1 of the same statement, listed
second. -/
def c3_v1 : Fact := { c3_v2 with report_version := "1", account_value := 500 }

/-- C3 fixture: two filed versions of one statement, newer version
first in table order. -/
def c3_input : List Fact := [c3_v2, c3_v1]

/-- C4 fixture: account code 1.2 (numeric segment order: before 1.10). -/
def c4_a : Fact :=
  mkFact .annual "1" ⟨2020, 12, 31⟩ (some ⟨2020, 1, 1⟩) ⟨2020, 12, 31⟩
    "1.2" "Conta Dois" 1

/-- C4 fixture: account code 1.10. -/
def c4_b : Fact := { c4_a with account_code := "1.10", account_name := "Conta Dez",
                               account_value := 2 }

/-- C4 fixture input. -/
def c4_input : List Fact := [c4_a, c4_b]

/-- C5 fixture: account 1.01 as named in the 2020 filing. -/
def c5_a : Fact :=
  mkFact .annual "1" ⟨2020, 12, 31⟩ (some ⟨2020, 1, 1⟩) ⟨2020, 12, 31⟩
    "1.01" "Caixa" 10

/-- C5 fixture: the same account renamed in the 2021 filing. -/
def c5_b : Fact :=
  mkFact .annual "1" ⟨2021, 12, 31⟩ (some ⟨2021, 1, 1⟩) ⟨2021, 12, 31⟩
    "1.01" "Caixa e Equivalentes" 20

/-- C5 fixture: one account code carrying two metadata triples. -/
def c5_input : List Fact := [c5_a, c5_b]

/-- C6 fixture: a two-segment code whose string is longer than the
regulator's fixed-width format. -/
def c6_fact : Fact :=
  mkFact .annual "1" ⟨2020, 12, 31⟩ (some ⟨2020, 1, 1⟩) ⟨2020, 12, 31⟩
    "2.0104" "Emprestimos" 10

/-- C6 witness fixture: the regulator-format code 2.01. -/
def c6w_fact : Fact :=
  mkFact .annual "1" ⟨2020, 12, 31⟩ (some ⟨2020, 1, 1⟩) ⟨2020, 12, 31⟩
    "2.01" "Passivo Circulante" 5

/-- C7 fixture: one period with zero revenue and nonzero net income. -/
def c7_inp : OpInput :=
  { r3_01 := [Val.num 0], r3_03 := [Val.num 3], r3_05 := [Val.num 4],
    r3_11 := [Val.num 5], r1 := [Val.num 10], r2_03 := [Val.num 10],
    r2_01_04 := [Val.num 0], r2_02_01 := [Val.num 0],
    r1_01_01 := [Val.num 0], r1_01_02 := [Val.num 0] }

/-- C9 fixture: a fact sequence holding one quarterly row. -/
def c9_input : List Fact :=
  [mkFact .quarterly "1" ⟨2022, 6, 30⟩ (some ⟨2022, 1, 1⟩) ⟨2022, 6, 30⟩
    "3.01" "Receita" 600]

/-- C10 fixture: a per-share account (code under 3.99). -/
def c10_ps : Fact :=
  mkFact .annual "1" ⟨2020, 12, 31⟩ (some ⟨2020, 1, 1⟩) ⟨2020, 12, 31⟩
    "3.99.01.01" "Lucro por Acao ON" 7

/-- C10 fixture: an ordinary account. -/
def c10_ord : Fact :=
  mkFact .annual "1" ⟨2020, 12, 31⟩ (some ⟨2020, 1, 1⟩) ⟨2020, 12, 31⟩
    "3.01" "Receita" 1000

/-- C10 fixture input. -/
def c10_input : List Fact := [c10_ps, c10_ord]

theorem dateLtB_asymm {a b : Date} (h : dateLtB a b = true) : dateLtB b a = false := by
  cases a; cases b
  simp only [dateLtB, Bool.or_eq_true, Bool.and_eq_true, beq_iff_eq, decide_eq_true_eq,
    Bool.or_eq_false_iff, Bool.and_eq_false_iff, decide_eq_false_iff_not, beq_eq_false_iff_ne,
    Date.mk.injEq] at *
  omega

theorem dateLtB_trans {a b c : Date} (h1 : dateLtB a b = true) (h2 : dateLtB b c = true) :
    dateLtB a c = true := by
  cases a; cases b; cases c
  simp only [dateLtB, Bool.or_eq_true, Bool.and_eq_true, beq_iff_eq, decide_eq_true_eq,
    Date.mk.injEq] at *
  omega

theorem dateLtB_total (a b : Date) : dateLtB a b = true ∨ dateLtB b a = true ∨ a = b := by
  cases a; cases b
  simp only [dateLtB, Bool.or_eq_true, Bool.and_eq_true, beq_iff_eq, decide_eq_true_eq,
    Date.mk.injEq]
  omega

theorem charListLeB_total : ∀ (a b : List Char), charListLeB a b = true ∨ charListLeB b a = true
  | [], _ => Or.inl rfl
  | _ :: _, [] => Or.inr rfl
  | a :: as, b :: bs => by
    simp only [charListLeB, Bool.or_eq_true, Bool.and_eq_true, beq_iff_eq, decide_eq_true_eq]
    rcases Nat.lt_trichotomy a.toNat b.toNat with h | h | h
    · exact Or.inl (Or.inl h)
    · rcases charListLeB_total as bs with ih | ih
      · exact Or.inl (Or.inr ⟨h, ih⟩)
      · exact Or.inr (Or.inr ⟨h.symm, ih⟩)
    · exact Or.inr (Or.inl h)

theorem charListLeB_trans : ∀ {a b c : List Char}, charListLeB a b = true →
    charListLeB b c = true → charListLeB a c = true
  | [], _, _, _, _ => rfl
  | _ :: _, [], _, h, _ => by simp [charListLeB] at h
  | _ :: _, _ :: _, [], _, h => by simp [charListLeB] at h
  | a :: as, b :: bs, c :: cs, h1, h2 => by
    simp only [charListLeB, Bool.or_eq_true, Bool.and_eq_true, beq_iff_eq,
      decide_eq_true_eq] at *
    rcases h1 with h1 | ⟨h1e, h1r⟩
    · rcases h2 with h2 | ⟨h2e, h2r⟩
      · exact Or.inl (Nat.lt_trans h1 h2)
      · exact Or.inl (h2e ▸ h1)
    · rcases h2 with h2 | ⟨h2e, h2r⟩
      · exact Or.inl (h1e ▸ h2)
      · exact Or.inr ⟨h1e.trans h2e, charListLeB_trans h1r h2r⟩

theorem strLeB_total (a b : String) : strLeB a b = true ∨ strLeB b a = true :=
  charListLeB_total a.data b.data

theorem strLeB_trans {a b c : String} (h1 : strLeB a b = true) (h2 : strLeB b c = true) :
    strLeB a c = true :=
  charListLeB_trans h1 h2

theorem joinCode_length_aux : ∀ (t : List String) (h : String), (∀ s ∈ t, s.length = 2) →
    (joinCode (h :: t)).length = h.length + 3 * t.length
  | [], h, _ => by simp [joinCode]
  | s :: t, h, ht => by
    have hs : s.length = 2 := ht s (List.mem_cons_self _ _)
    have ht2 : ∀ u ∈ t, u.length = 2 := fun u hu => ht u (List.mem_cons_of_mem _ hu)
    have ih := joinCode_length_aux t s ht2
    show (h ++ "." ++ joinCode (s :: t)).length = h.length + 3 * (t.length + 1)
    have hdot : ("." : String).length = 1 := rfl
    rw [String.length_append, String.length_append, ih, hs, hdot]
    omega

theorem joinCode_length {h : String} {t : List String}
    (hh : h.length = 1) (ht : ∀ s ∈ t, s.length = 2) :
    (joinCode (h :: t)).length = 1 + 3 * t.length := by
  rw [joinCode_length_aux t h ht, hh]

theorem dkfAux_sublist (key : α → β) [DecidableEq β] :
    ∀ (seen : List β) (l : List α), (dkfAux key seen l).Sublist l
  | _, [] => List.Sublist.refl []
  | seen, x :: xs => by
    unfold dkfAux
    by_cases h : key x ∈ seen
    · simp only [if_pos h]
      exact (dkfAux_sublist key seen xs).cons x
    · simp only [if_neg h]
      exact (dkfAux_sublist key (key x :: seen) xs).cons₂ x

theorem dkfAux_key_not_seen (key : α → β) [DecidableEq β] :
    ∀ (seen : List β) (l : List α) (k : β),
      k ∈ (dkfAux key seen l).map key → k ∉ seen
  | _, [], _, h => by simp [dkfAux] at h
  | seen, x :: xs, k, h => by
    unfold dkfAux at h
    by_cases hx : key x ∈ seen
    · rw [if_pos hx] at h
      exact dkfAux_key_not_seen key seen xs k h
    · rw [if_neg hx] at h
      rcases List.mem_cons.mp h with rfl | h2
      · exact hx
      · have := dkfAux_key_not_seen key (key x :: seen) xs k h2
        exact fun hk => this (List.mem_cons_of_mem _ hk)

theorem dkfAux_key_nodup (key : α → β) [DecidableEq β] :
    ∀ (seen : List β) (l : List α), ((dkfAux key seen l).map key).Nodup
  | _, [] => List.nodup_nil
  | seen, x :: xs => by
    unfold dkfAux
    by_cases hx : key x ∈ seen
    · rw [if_pos hx]
      exact dkfAux_key_nodup key seen xs
    · rw [if_neg hx]
      rw [List.map_cons, List.nodup_cons]
      refine ⟨fun hmem => ?_, dkfAux_key_nodup key (key x :: seen) xs⟩
      exact dkfAux_key_not_seen key (key x :: seen) xs (key x) hmem
        (List.mem_cons_self _ _)

theorem dkfAux_mem_key (key : α → β) [DecidableEq β] :
    ∀ (seen : List β) (l : List α) (k : β),
      k ∈ l.map key → k ∉ seen → k ∈ (dkfAux key seen l).map key
  | _, [], _, h, _ => by simp at h
  | seen, x :: xs, k, h, hns => by
    unfold dkfAux
    by_cases hx : key x ∈ seen
    · rw [if_pos hx]
      rcases List.mem_cons.mp h with rfl | h2
      · exact absurd hx hns
      · exact dkfAux_mem_key key seen xs k h2 hns
    · rw [if_neg hx, List.map_cons]
      rcases List.mem_cons.mp h with rfl | h2
      · exact List.mem_cons_self _ _
      · by_cases hk : k = key x
        · exact hk ▸ List.mem_cons_self _ _
        · refine List.mem_cons_of_mem _ ?_
          exact dkfAux_mem_key key (key x :: seen) xs k h2 (by
            intro hmem
            rcases List.mem_cons.mp hmem with h3 | h3
            · exact hk h3
            · exact hns h3)

theorem dedupKeepFirst_sublist (key : α → β) [DecidableEq β] (l : List α) :
    (dedupKeepFirst key l).Sublist l :=
  dkfAux_sublist key [] l

theorem dedupKeepFirst_key_nodup (key : α → β) [DecidableEq β] (l : List α) :
    ((dedupKeepFirst key l).map key).Nodup :=
  dkfAux_key_nodup key [] l

theorem dedupKeepFirst_mem_key (key : α → β) [DecidableEq β] (l : List α) (k : β) :
    k ∈ (dedupKeepFirst key l).map key ↔ k ∈ l.map key := by
  constructor
  · intro h
    exact ((dedupKeepFirst_sublist key l).map key).mem h
  · intro h
    exact dkfAux_mem_key key [] l k h (List.not_mem_nil k)

theorem dedupKeepFirst_id_nodup [DecidableEq α] (l : List α) :
    (dedupKeepFirst id l).Nodup := by
  have := dedupKeepFirst_key_nodup id l
  rwa [List.map_id] at this

theorem dedupKeepFirst_id_mem [DecidableEq α] (l : List α) (k : α) :
    k ∈ dedupKeepFirst id l ↔ k ∈ l := by
  have := dedupKeepFirst_mem_key id l k
  rwa [List.map_id, List.map_id] at this

theorem dedupKeepLast_sublist (key : α → β) [DecidableEq β] :
    ∀ (l : List α), (dedupKeepLast key l).Sublist l
  | [] => List.Sublist.refl []
  | x :: xs => by
    unfold dedupKeepLast
    by_cases h : xs.any (fun y => key y == key x)
    · simp only [if_pos h]
      exact (dedupKeepLast_sublist key xs).cons x
    · simp only [if_neg h]
      exact (dedupKeepLast_sublist key xs).cons₂ x

theorem dedupKeepLast_key_nodup (key : α → β) [DecidableEq β] :
    ∀ (l : List α), ((dedupKeepLast key l).map key).Nodup
  | [] => List.nodup_nil
  | x :: xs => by
    unfold dedupKeepLast
    by_cases h : xs.any (fun y => key y == key x)
    · rw [if_pos h]
      exact dedupKeepLast_key_nodup key xs
    · rw [if_neg h, List.map_cons, List.nodup_cons]
      refine ⟨fun hmem => ?_, dedupKeepLast_key_nodup key xs⟩
      rcases List.mem_map.mp hmem with ⟨y, hy, hky⟩
      have hyxs : y ∈ xs := ((dedupKeepLast_sublist key xs).mem hy)
      have : xs.any (fun y => key y == key x) = true :=
        List.any_eq_true.mpr ⟨y, hyxs, by simp [hky]⟩
      exact h this

theorem filter_eq_singleton_of_nodup [DecidableEq β] :
    ∀ {ks : List β}, ks.Nodup → ∀ {c : β}, c ∈ ks →
      ks.filter (fun k => k == c) = [c]
  | [], _, c, hc => absurd hc (List.not_mem_nil c)
  | k :: ks, hnd, c, hc => by
    rw [List.nodup_cons] at hnd
    rcases List.mem_cons.mp hc with rfl | h2
    · rw [List.filter_cons_of_pos (by simp)]
      have : ks.filter (fun x => x == c) = [] := by
        rw [List.filter_eq_nil_iff]
        intro a ha
        simp only [beq_iff_eq]
        intro hac
        exact hnd.1 (hac ▸ ha)
      rw [this]
    · rw [List.filter_cons_of_neg (by
        simp only [beq_iff_eq]
        intro hkc
        exact hnd.1 (hkc ▸ h2))]
      exact filter_eq_singleton_of_nodup hnd.2 h2

theorem filter_key_length_le_one {f : α → β} [DecidableEq β] :
    ∀ {l : List α}, (l.map f).Nodup → ∀ (t : β),
      (l.filter (fun x => f x == t)).length ≤ 1
  | [], _, _ => by simp
  | x :: xs, hnd, t => by
    rw [List.map_cons, List.nodup_cons] at hnd
    by_cases hx : f x = t
    · rw [List.filter_cons_of_pos (by simp [hx])]
      have : xs.filter (fun y => f y == t) = [] := by
        rw [List.filter_eq_nil_iff]
        intro a ha
        simp only [beq_iff_eq]
        intro hat
        exact hnd.1 (by
          rw [hx, ← hat]
          exact List.mem_map_of_mem f ha)
      rw [this]
      simp
    · rw [List.filter_cons_of_neg (by simp [hx])]
      exact filter_key_length_le_one hnd.2 t

theorem orderedInsert_pairwise {r : α → α → Prop} [DecidableRel r]
    (total : ∀ a b, r a b ∨ r b a) (trans : ∀ {a b c}, r a b → r b c → r a c) (x : α) :
    ∀ {l : List α}, l.Pairwise r → (List.orderedInsert r x l).Pairwise r
  | [], _ => List.pairwise_singleton r x
  | y :: ys, h => by
    rw [List.orderedInsert]
    by_cases hxy : r x y
    · rw [if_pos hxy]
      have hcons : List.Pairwise r (y :: ys) := h
      rw [List.pairwise_cons] at h
      refine List.Pairwise.cons ?_ hcons
      intro z hz
      rcases List.mem_cons.mp hz with rfl | hz2
      · exact hxy
      · exact trans hxy (h.1 z hz2)
    · rw [if_neg hxy]
      rw [List.pairwise_cons] at h
      rw [List.pairwise_cons]
      refine ⟨?_, orderedInsert_pairwise total trans x h.2⟩
      intro z hz
      rcases (List.mem_orderedInsert r).mp hz with rfl | hz2
      · rcases total z y with hzy | hyz
        · exact absurd hzy hxy
        · exact hyz
      · exact h.1 z hz2

theorem insertionSort_pairwise {r : α → α → Prop} [DecidableRel r]
    (total : ∀ a b, r a b ∨ r b a) (trans : ∀ {a b c}, r a b → r b c → r a c) :
    ∀ (l : List α), (List.insertionSort r l).Pairwise r
  | [] => List.Pairwise.nil
  | x :: xs => by
    rw [List.insertionSort]
    exact orderedInsert_pairwise total trans x (insertionSort_pairwise total trans xs)

theorem le3_total (f g : Fact) : le3 f g ∨ le3 g f := by
  unfold le3 le3B
  rcases dateLtB_total f.period_end g.period_end with h | h | h
  · exact Or.inl (by simp [h])
  · exact Or.inr (by simp [h])
  · rcases dateLtB_total f.period_reference g.period_reference with h2 | h2 | h2
    · exact Or.inl (by simp [h, h2])
    · exact Or.inr (by simp [h, h2])
    · rcases strLeB_total f.account_code g.account_code with h3 | h3
      · exact Or.inl (by simp [h, h2, h3])
      · exact Or.inr (by simp [h, h2, h3])

theorem le3_trans {f g k : Fact} (h1 : le3 f g) (h2 : le3 g k) : le3 f k := by
  unfold le3 le3B at *
  simp only [Bool.or_eq_true, Bool.and_eq_true, beq_iff_eq] at *
  rcases h1 with h1 | ⟨h1e, h1r⟩
  · rcases h2 with h2 | ⟨h2e, h2r⟩
    · exact Or.inl (dateLtB_trans h1 h2)
    · exact Or.inl (h2e ▸ h1)
  · rcases h2 with h2 | ⟨h2e, h2r⟩
    · exact Or.inl (h1e ▸ h2)
    · refine Or.inr ⟨h1e.trans h2e, ?_⟩
      rcases h1r with h1r | ⟨h1re, h1rc⟩
      · rcases h2r with h2r | ⟨h2re, h2rc⟩
        · exact Or.inl (dateLtB_trans h1r h2r)
        · exact Or.inl (h2re ▸ h1r)
      · rcases h2r with h2r | ⟨h2re, h2rc⟩
        · exact Or.inl (h1re ▸ h2r)
        · exact Or.inr ⟨h1re.trans h2re, strLeB_trans h1rc h2rc⟩

theorem rowLe_total (r s : RowMeta × List (Option ℚ)) : rowLe r s ∨ rowLe s r :=
  strLeB_total r.1.account_code s.1.account_code

theorem rowLe_trans {r s t : RowMeta × List (Option ℚ)} (h1 : rowLe r s) (h2 : rowLe s t) :
    rowLe r t :=
  strLeB_trans h1 h2

theorem minBeginFilter_nil : minBeginFilter [] = [] := rfl

theorem ltm_rows_nil_of_no_quarterly {df : List Fact} (h : latest_quarterly df = none) :
    ltm_rows df = [] := by
  have hdf1 : df1_of df = [] := by
    unfold df1_of
    rw [h]
    have hfilter : df.filter (fun f => optEqB (some f.period_end) none) = [] :=
      List.filter_eq_nil_iff.mpr (fun f _ => by
        show ¬ (false = true)
        simp)
    rw [hfilter]
    exact minBeginFilter_nil
  unfold ltm_rows merge_df1
  rw [hdf1]
  rfl

/-- C2 (amended): `calculate_ltm` is the identity on the annual rows
exactly in the strict case: when the latest annual period end is
strictly later than the latest quarterly one (pandas `NaT` comparisons
make the guard false when either maximum is missing), and also when no
quarterly rows exist at all (the reconstruction branch then produces no
rows).  When the two dates are equal the guard fails and reconstruction
proceeds — see the counterexample. -/
theorem C2_identity_requires_strict (df_flow : List Fact)
    (h : latest_quarterly df_flow = none ∨
         optGtB (latest_annual df_flow) (latest_quarterly df_flow) = true) :
    calculate_ltm df_flow = annual_rows df_flow := by
  rcases h with h | h
  · have hg : optGtB (latest_annual df_flow) (latest_quarterly df_flow) = false := by
      rw [h]
      cases latest_annual df_flow <;> rfl
    have hbranch : calculate_ltm df_flow = annual_rows df_flow ++ ltm_rows df_flow := by
      unfold calculate_ltm calculate_ltmS
      rw [hg]
      rfl
    rw [hbranch, ltm_rows_nil_of_no_quarterly h, List.append_nil]
  · unfold calculate_ltm calculate_ltmS
    rw [h]
    rfl

/-- C2 (counterexample): with the latest annual and latest quarterly
period ends equal, the claim demands the identity result, but the code
takes the reconstruction branch and appends a reconstructed row. -/
theorem C2_equal_dates_not_identity :
    latest_annual c2_input = latest_quarterly c2_input ∧
    calculate_ltm c2_input ≠ annual_rows c2_input := by
  exact ⟨rfl, by decide⟩

/-- C2 (witness): on a fixture whose annual filing is strictly newer
than its quarterly one, the identity case fires. -/
theorem C2_identity_witness : calculate_ltm c2w_input = annual_rows c2w_input :=
  C2_identity_requires_strict c2w_input (Or.inr rfl)

/-- C3: the deduplicator of `Finance._make_report` sorts on
`(period_end, period_reference, account_code)` only — `report_version`
is not a key — so with the version-2 row listed before the version-1
row (both carrying identical sort keys), the stable sort preserves that
order and `keep='last'` retains version 1's value 500, while the
specification's four-key order (modelled by `dedup_spec`) retains
version 2's value 520 as claimed. -/
theorem C3_dedup_ignores_report_version :
    c3_input.map Fact.report_version = ["2", "1"] ∧
    (dedup_stage c3_input).map Fact.account_value = [500] ∧
    (dedup_spec c3_input).map Fact.account_value = [520] :=
  ⟨rfl, rfl, rfl⟩

/-- C6 (counterexample): the code `2.0104` has two dot-separated
segments, so the claim retains it at detail level 2, but the filter
works on string length (`6 > 3*2-2`) and drops it. -/
theorem C6_two_segment_code_dropped :
    (segStrings c6_fact.account_code).length = 2 ∧
    levelFilter (some 2) [c6_fact] = [] :=
  ⟨rfl, rfl⟩

/-- C6 (amended): the level filter keeps codes of string length at most
`3*L - 2`; on well-formed regulator codes (one-character statement
segment, two-character nested segments) this coincides with keeping
codes of at most `L` dot-separated segments, and level `none` retains
everything. -/
theorem C6_level_filter_counts_segments_on_wf_codes (L : Nat) (hL : 2 ≤ L)
    (df : List Fact) (f : Fact) (segs : List String)
    (hcode : f.account_code = joinCode segs) (hwf : wfSegs segs) :
    levelFilter none df = df ∧
    (f ∈ levelFilter (some L) df ↔ f ∈ df ∧ segs.length ≤ L) := by
  refine ⟨rfl, ?_⟩
  cases segs with
  | nil => exact absurd hwf (by simp [wfSegs])
  | cons h t =>
    obtain ⟨hh, ht⟩ := hwf
    have hlen : f.account_code.length = 1 + 3 * t.length := by
      rw [hcode]
      exact joinCode_length hh ht
    show f ∈ List.filter _ df ↔ _
    rw [List.mem_filter]
    constructor
    · rintro ⟨hmem, hcond⟩
      refine ⟨hmem, ?_⟩
      have hle : f.account_code.length ≤ 3 * L - 2 := by simpa using hcond
      rw [hlen] at hle
      simp only [List.length_cons]
      omega
    · rintro ⟨hmem, hcount⟩
      refine ⟨hmem, ?_⟩
      simp only [List.length_cons] at hcount
      have hle : f.account_code.length ≤ 3 * L - 2 := by
        rw [hlen]
        omega
      simpa using hle

/-- C6 (witness): at level 2, the regulator-format code `2.01` (two
segments) is retained. -/
theorem C6_levelFilter_witness :
    levelFilter none [c6w_fact] = [c6w_fact] ∧
    (c6w_fact ∈ levelFilter (some 2) [c6w_fact] ↔
      c6w_fact ∈ [c6w_fact] ∧ (["2", "01"] : List String).length ≤ 2) :=
  C6_level_filter_counts_segments_on_wf_codes 2 (by norm_num) [c6w_fact] c6w_fact
    ["2", "01"] rfl ⟨rfl, by decide⟩

/-- C8: the `first_period == pd.NaT` test at the top of
`Corporation.report` can never fire, because pandas `NaT` equality is
false even against `NaT` itself; an unparseable date therefore passes
validation (first conjunct) and then the `period_end >= NaT` scope
filter silently empties the frame (second conjunct), so the call
returns an empty report instead of failing at the boundary.  The basis,
unit and level validations do fire (remaining conjuncts). -/
theorem C8_unparseable_first_period_passes_validation :
    report_validate none "consolidated" 1 none = Except.ok none ∧
    (∀ df : List Fact, scopeFilter "consolidated" none df = []) ∧
    report_validate (some ⟨2009, 1, 1⟩) "bogus" 1 none = Except.error RepErr.badBasis ∧
    report_validate (some ⟨2009, 1, 1⟩) "consolidated" 0 none = Except.error RepErr.badUnit ∧
    report_validate (some ⟨2009, 1, 1⟩) "consolidated" 1 (some 5) =
      Except.error RepErr.badLevel := by
  refine ⟨rfl, ?_, rfl, rfl, rfl⟩
  intro df
  refine List.filter_eq_nil_iff.mpr (fun f _ => ?_)
  have h : optGeB (some f.period_end) none = false := rfl
  simp [h]

/-- C9 (counterexample): `Finance.calculate_ltm` runs
`df_flow.query('report_type == "annual"', inplace=True)` on the
caller's frame, so a passed fact sequence holding a quarterly row is
not left unchanged by the call. -/
theorem C9_calculate_ltm_mutates_argument :
    (calculate_ltmS c9_input).1 ≠ c9_input := by decide

/-- C9 (amended): the stored fact table is only read (the report
pipeline operates on copies), but the fact sequence a caller passes to
`calculate_ltm` is mutated in place: after the call, on either branch,
the argument holds exactly its annual rows, in order. -/
theorem C9_argument_becomes_annual_rows (df_flow : List Fact) :
    (calculate_ltmS df_flow).1 =
      df_flow.filter (fun f => f.report_type == ReportType.annual) := by
  unfold calculate_ltmS
  by_cases h : optGtB (latest_annual df_flow) (latest_quarterly df_flow) = true
  · rw [h]
    rfl
  · rw [Bool.not_eq_true] at h
    rw [h]
    rfl

/-- C10: `Corporation.report` divides every account value by the unit
except for per-share accounts (codes starting with `3.99`), which pass
through unchanged; the transform is positional and length-preserving. -/
theorem C10_unit_division_exempts_399 (u : ℚ) (hu : 0 < u) (df : List Fact)
    (i : Nat) (g : Fact) (hg : df[i]? = some g) :
    (applyUnit u df)[i]? =
      some (if strStartsWith g.account_code "3.99" then g
            else { g with account_value := g.account_value / u }) ∧
    (applyUnit u df).length = df.length := by
  constructor
  · unfold applyUnit
    rw [List.getElem?_map, hg]
    rfl
  · simp [applyUnit]

/-- C10 (witness): with unit 2, the per-share account `3.99.01.01` is
exempt while ordinary accounts are divided. -/
theorem C10_unit_witness :
    (applyUnit 2 c10_input)[0]? =
      some (if strStartsWith c10_ps.account_code "3.99" then c10_ps
            else { c10_ps with account_value := c10_ps.account_value / 2 }) ∧
    (applyUnit 2 c10_input).length = c10_input.length :=
  C10_unit_division_exempts_399 2 (by norm_num) c10_input 0 c10_ps rfl

theorem getElem?_zipWith_bind {f : α → β → γ} {as : List α} {bs : List β} {i : Nat} :
    (List.zipWith f as bs)[i]? = (as[i]?).bind (fun a => (bs[i]?).map (f a)) := by
  rw [List.getElem?_zipWith]
  cases as[i]? <;> cases bs[i]? <;> rfl

/-- C4 (counterexample): the built report orders `1.10` before `1.2`
(plain string comparison), although segment-wise numeric comparison
puts `1.2` first as the claim demands. -/
theorem C4_string_order_not_numeric :
    ((make_report c4_input).rows.map (fun r => r.1.account_code)) = ["1.10", "1.2"] ∧
    codeNumLtB "1.2" "1.10" = true :=
  ⟨rfl, rfl⟩

/-- C4 (amended): report rows are sorted by plain string comparison of
`account_code` (`sort_values('account_code')`), a total order that
coincides with segment-wise numeric order only on fixed-width
regulator codes. -/
theorem C4_rows_sorted_by_plain_string_order (df0 : List Fact) :
    ((make_report df0).rows.map (fun r => r.1.account_code)).Pairwise strLe := by
  have hs : (List.insertionSort rowLe (report_merged df0)).Pairwise rowLe :=
    insertionSort_pairwise rowLe_total (fun {_ _ _} => rowLe_trans) (report_merged df0)
  exact List.pairwise_map.mpr hs

/-- C7 (counterexample): a zero revenue with nonzero net income makes
`net_margin` a signed infinity, not the "no data" (NaN) marker the
claim promises for zero denominators. -/
theorem C7_zero_denominator_gives_infinity :
    (operating_performance c7_inp true).net_margin = [Val.pinf] ∧
    Val.pinf ≠ Val.nan :=
  ⟨rfl, by decide⟩

/-- C7 (amended): each indicator cell is the IEEE division of that
indicator's numerator and denominator at the same period index (so the
computation is total — it never raises — and no other cell is
affected); a missing (NaN) denominator yields NaN, a zero denominator
yields NaN only when the numerator is also zero, and otherwise yields a
signed infinity rather than the "no data" marker. -/
theorem C7_ratio_cells_pointwise (inp : OpInput) (is_on : Bool) (i : Nat) :
    ((operating_performance inp is_on).net_margin[i]? =
      (inp.r3_11[i]?).bind (fun a => (inp.r3_01[i]?).map (Val.div a))) ∧
    ((operating_performance inp is_on).gross_margin[i]? =
      (inp.r3_03[i]?).bind (fun a => (inp.r3_01[i]?).map (Val.div a))) ∧
    ((operating_performance inp is_on).operating_margin[i]? =
      ((sScale one_minus_tax inp.r3_05)[i]?).bind
        (fun a => (inp.r3_01[i]?).map (Val.div a))) ∧
    ((operating_performance inp is_on).return_on_assets[i]? =
      ((sScale one_minus_tax inp.r3_05)[i]?).bind
        (fun a => ((shift_right is_on inp.r1)[i]?).map (Val.div a))) ∧
    ((operating_performance inp is_on).return_on_equity[i]? =
      (inp.r3_11[i]?).bind
        (fun a => ((shift_right is_on inp.r2_03)[i]?).map (Val.div a))) ∧
    ((operating_performance inp is_on).return_on_capital[i]? =
      ((sScale one_minus_tax inp.r3_05)[i]?).bind
        (fun a => ((shift_right is_on (invested_capital_series inp))[i]?).map
          (Val.div a))) ∧
    (∀ v : Val, Val.div v Val.nan = Val.nan) ∧
    (Val.div (Val.num 0) (Val.num 0) = Val.nan) ∧
    (∀ q : ℚ, 0 < q → Val.div (Val.num q) (Val.num 0) = Val.pinf) ∧
    (∀ q : ℚ, q < 0 → Val.div (Val.num q) (Val.num 0) = Val.ninf) := by
  refine ⟨?_, ?_, ?_, ?_, ?_, ?_, ?_, ?_, ?_, ?_⟩
  · show (List.zipWith Val.div inp.r3_11 inp.r3_01)[i]? = _
    exact getElem?_zipWith_bind
  · show (List.zipWith Val.div inp.r3_03 inp.r3_01)[i]? = _
    exact getElem?_zipWith_bind
  · show (List.zipWith Val.div (sScale one_minus_tax inp.r3_05) inp.r3_01)[i]? = _
    exact getElem?_zipWith_bind
  · show (List.zipWith Val.div (sScale one_minus_tax inp.r3_05)
      (shift_right is_on inp.r1))[i]? = _
    exact getElem?_zipWith_bind
  · show (List.zipWith Val.div inp.r3_11 (shift_right is_on inp.r2_03))[i]? = _
    exact getElem?_zipWith_bind
  · show (List.zipWith Val.div (sScale one_minus_tax inp.r3_05)
      (shift_right is_on (invested_capital_series inp)))[i]? = _
    exact getElem?_zipWith_bind
  · intro v
    cases v <;> rfl
  · show (if (0 : ℚ) ≠ 0 then Val.num (0 / 0) else if (0 : ℚ) = 0 then Val.nan
          else if 0 < (0 : ℚ) then Val.pinf else Val.ninf) = Val.nan
    norm_num
  · intro q hq
    show (if (0 : ℚ) ≠ 0 then Val.num (q / 0) else if q = 0 then Val.nan
          else if 0 < q then Val.pinf else Val.ninf) = Val.pinf
    rw [if_neg (by norm_num), if_neg (ne_of_gt hq), if_pos hq]
  · intro q hq
    show (if (0 : ℚ) ≠ 0 then Val.num (q / 0) else if q = 0 then Val.nan
          else if 0 < q then Val.pinf else Val.ninf) = Val.ninf
    rw [if_neg (by norm_num), if_neg (ne_of_lt hq), if_neg (not_lt.mpr hq.le)]

/-- C7 (witness): the pointwise characterisation evaluated on the
zero-revenue fixture. -/
theorem C7_ratio_witness :
    (operating_performance c7_inp true).net_margin[0]? =
      some (Val.div (Val.num 5) (Val.num 0)) ∧
    Val.div (Val.num 5) (Val.num 0) = Val.pinf := by
  have h := C7_ratio_cells_pointwise c7_inp true 0
  refine ⟨?_, h.2.2.2.2.2.2.2.2.1 5 (by norm_num)⟩
  rw [h.1]
  rfl

theorem sortedKeys_nodup (l : List (String × ℚ)) : (sortedKeys l).Nodup :=
  dedupKeepFirst_id_nodup _

theorem mem_sortedKeys {l : List (String × ℚ)} {c : String}
    (h : c ∈ l.map Prod.fst) : c ∈ sortedKeys l := by
  unfold sortedKeys
  rw [dedupKeepFirst_id_mem]
  exact ((List.perm_insertionSort strLe _).mem_iff).mpr h

theorem groupSum_filter {l : List (String × ℚ)} {c : String}
    (h : c ∈ l.map Prod.fst) :
    (groupSum l).filter (fun p => p.1 == c) = [(c, sumAt c l)] := by
  unfold groupSum
  rw [List.filter_map]
  have hsing : (sortedKeys l).filter (fun k => k == c) = [c] :=
    filter_eq_singleton_of_nodup (sortedKeys_nodup l) (mem_sortedKeys h)
  have hpred : ((fun p : String × ℚ => p.1 == c) ∘ fun k => (k, sumAt k l)) =
      (fun k => k == c) := rfl
  rw [hpred, hsing]
  rfl

theorem merge_df1_eq_map (S : String → ℚ) :
    ∀ (df1 : List Fact) (gs : List (String × ℚ)),
      (∀ f ∈ df1, gs.filter (fun p => p.1 == f.account_code) =
        [(f.account_code, S f.account_code)]) →
      merge_df1 df1 gs = df1.map (fun f => { f with account_value := S f.account_code })
  | [], _, _ => rfl
  | f :: fs, gs, h => by
    unfold merge_df1
    rw [List.flatMap_cons, h f (List.mem_cons_self _ _)]
    have ih := merge_df1_eq_map S fs gs (fun g hg => h g (List.mem_cons_of_mem _ hg))
    unfold merge_df1 at ih
    rw [ih]
    rfl

theorem mem_concat_pairs_keys {df : List Fact} {f : Fact} (h : f ∈ df1_of df) :
    f.account_code ∈ (concat_pairs df).map Prod.fst := by
  unfold concat_pairs
  rw [List.map_map]
  refine List.mem_map.mpr ⟨f, ?_, rfl⟩
  exact List.mem_append.mpr (Or.inl (List.mem_append.mpr (Or.inl h)))

theorem sumAt_append (c : String) (l1 l2 : List (String × ℚ)) :
    sumAt c (l1 ++ l2) = sumAt c l1 + sumAt c l2 := by
  unfold sumAt
  rw [List.filter_append, List.map_append, List.sum_append]

theorem sum_neg_map (l : List ℚ) : (l.map (fun x => -x)).sum = -l.sum := by
  induction l with
  | nil => simp
  | cons x xs ih =>
    simp only [List.map_cons, List.sum_cons, ih]
    ring

theorem sumAt_map_pair (c : String) (g : Fact → ℚ) (rows : List Fact) :
    sumAt c (rows.map (fun f => (f.account_code, g f))) =
      ((rows.filter (fun f => f.account_code == c)).map g).sum := by
  unfold sumAt
  rw [List.filter_map, List.map_map]
  rfl

theorem sumAt_concat_pairs (df : List Fact) (c : String) :
    sumAt c (concat_pairs df) = Qsum df c - Csum df c + Asum df c := by
  unfold concat_pairs
  rw [List.map_append, List.map_append, sumAt_append, sumAt_append]
  have hmid : sumAt c ((df2_of df).map (fun f => (f.account_code, f.account_value))) =
      - Csum df c := by
    unfold df2_of Csum
    rw [List.map_map]
    have hcomp : ((fun f : Fact => (f.account_code, f.account_value)) ∘
        fun f => { f with account_value := -f.account_value }) =
        (fun f : Fact => (f.account_code, -f.account_value)) := rfl
    rw [hcomp, sumAt_map_pair c (fun f => -f.account_value), sumAt_map_pair c
      (fun f => f.account_value)]
    have hneg : ((minBeginFilter (df.filter
        (fun f => optEqB (some f.period_reference) (latest_quarterly df)))).filter
          (fun f => f.account_code == c)).map (fun f => -f.account_value) =
        (((minBeginFilter (df.filter
          (fun f => optEqB (some f.period_reference) (latest_quarterly df)))).filter
            (fun f => f.account_code == c)).map (fun f => f.account_value)).map
          (fun x => -x) := by
      rw [List.map_map]
      rfl
    rw [hneg, sum_neg_map]
  rw [hmid]
  have hQ : sumAt c ((df1_of df).map (fun f => (f.account_code, f.account_value))) =
      Qsum df c := rfl
  have hA : sumAt c ((df3_of df).map (fun f => (f.account_code, f.account_value))) =
      Asum df c := rfl
  rw [hQ, hA]
  ring

/-- C1 (amended): when the latest quarterly period end is strictly
later than the latest annual one, the reconstructed (ltm-tagged) rows
cover exactly the account codes of the current-year-to-date quarterly
set `df1` — the merge with `df1` is an inner join, so codes present
only in the comparative or annual sets are absent — and each covered
code carries the value `Q - C + A`, a set contributing zero when the
code is missing from it.  The annual rows are kept in full ahead of the
reconstructed rows. -/
theorem C1_ltm_exact_sum_on_df1_codes (df : List Fact) (a q : Date)
    (ha : latest_annual df = some a) (hq : latest_quarterly df = some q)
    (hlt : dateLtB a q = true) :
    calculate_ltm df = annual_rows df ++ (df1_of df).map (fun f =>
      { f with report_type := ReportType.ltm,
               period_begin := some (Date.subYear q),
               account_value := Qsum df f.account_code - Csum df f.account_code
                 + Asum df f.account_code }) := by
  have hg : optGtB (latest_annual df) (latest_quarterly df) = false := by
    rw [ha, hq]
    exact dateLtB_asymm hlt
  have hbranch : calculate_ltm df = annual_rows df ++ ltm_rows df := by
    unfold calculate_ltm calculate_ltmS
    rw [hg]
    rfl
  rw [hbranch]
  congr 1
  unfold ltm_rows
  rw [hq]
  rw [merge_df1_eq_map (fun c => sumAt c (concat_pairs df)) (df1_of df)
    (groupSum (concat_pairs df))
    (fun f hf => groupSum_filter (mem_concat_pairs_keys hf))]
  rw [List.map_map]
  simp only [sumAt_concat_pairs]
  rfl

/-- C1 (counterexample): with code `6.02` present only in the annual
set, the claim's outer-union coverage requires a reconstructed row for
it (value `0 - 0 + 77`), but the inner merge with the quarterly set
produces reconstructed rows only for `6.01`. -/
theorem C1_coverage_not_outer_union :
    latest_annual c1_input = some ⟨2021, 12, 31⟩ ∧
    latest_quarterly c1_input = some ⟨2022, 6, 30⟩ ∧
    ((calculate_ltm c1_input).filter (fun f => f.report_type == ReportType.ltm)).map
      Fact.account_code = ["6.01"] ∧
    "6.02" ∈ (df3_of c1_input).map Fact.account_code ∧
    "6.02" ∉ ((calculate_ltm c1_input).filter
      (fun f => f.report_type == ReportType.ltm)).map Fact.account_code :=
  ⟨rfl, rfl, by decide, by decide, by decide⟩

/-- C1 (witness): the amended exact-sum theorem evaluated on the
four-row fixture (`600 - 450 + 1000 = 1150` for `6.01`). -/
theorem C1_ltm_exact_sum_witness :
    calculate_ltm c1_input = annual_rows c1_input ++ (df1_of c1_input).map (fun f =>
      { f with report_type := ReportType.ltm,
               period_begin := some (Date.subYear ⟨2022, 6, 30⟩),
               account_value := Qsum c1_input f.account_code
                 - Csum c1_input f.account_code + Asum c1_input f.account_code }) :=
  C1_ltm_exact_sum_on_df1_codes c1_input ⟨2021, 12, 31⟩ ⟨2022, 6, 30⟩ rfl rfl rfl

theorem dedup_stage_key_nodup (df0 : List Fact) :
    ((dedup_stage df0).map year_code).Nodup :=
  dedupKeepLast_key_nodup year_code _

theorem mem_filter_pe {D : List Fact} {p : Date} {f : Fact}
    (h : f ∈ D.filter (fun g => g.period_end == p)) : f.period_end = p := by
  have := (List.mem_filter.mp h).2
  exact beq_iff_eq.mp this

theorem dfy_triple_nodup (df0 : List Fact) (p : Date) :
    (((dedup_stage df0).filter (fun f => f.period_end == p)).map tripleOf).Nodup := by
  have hsub : ((dedup_stage df0).filter (fun f => f.period_end == p)).Sublist
      (dedup_stage df0) := List.filter_sublist _
  have hyc : (((dedup_stage df0).filter (fun f => f.period_end == p)).map year_code).Nodup :=
    (hsub.map year_code).nodup (dedup_stage_key_nodup df0)
  have h1 : ((dedup_stage df0).filter (fun f => f.period_end == p)).Pairwise
      (fun a b => year_code a ≠ year_code b) := List.pairwise_map.mp hyc
  have h2 : ((dedup_stage df0).filter (fun f => f.period_end == p)).Pairwise
      (fun a b => tripleOf a ≠ tripleOf b) := by
    refine h1.imp_of_mem ?_
    intro a b ha hb hne heq
    apply hne
    have hpa : a.period_end = p := mem_filter_pe ha
    have hpb : b.period_end = p := mem_filter_pe hb
    have hcode : a.account_code = b.account_code := by
      have := congrArg RowMeta.account_code heq
      exact this
    unfold year_code
    rw [hpa, hpb, hcode]
  exact List.pairwise_map.mpr h2

theorem merge_step_skeleton (D : List Fact) (p : Date)
    (hnd : ((D.filter (fun f => f.period_end == p)).map tripleOf).Nodup) :
    ∀ (acc : List (RowMeta × List (Option ℚ))),
      (merge_step D acc p).map Prod.fst = acc.map Prod.fst ∧
      (∀ r ∈ merge_step D acc p, ∃ s ∈ acc, r.1 = s.1 ∧ r.2.length = s.2.length + 1)
  | [] => ⟨rfl, by simp [merge_step]⟩
  | r :: acc => by
    have ih := merge_step_skeleton D p hnd acc
    have hlen : ((D.filter (fun f => f.period_end == p)).filter
        (fun f => tripleOf f == r.1)).length ≤ 1 :=
      filter_key_length_le_one hnd r.1
    have hhead : ∃ cell : Option ℚ,
        (if ((D.filter (fun f => f.period_end == p)).filter
              (fun f => tripleOf f == r.1)).isEmpty then
          [(r.1, r.2 ++ [(none : Option ℚ)])]
        else ((D.filter (fun f => f.period_end == p)).filter
            (fun f => tripleOf f == r.1)).map
          (fun f => (r.1, r.2 ++ [some f.account_value]))) =
        [(r.1, r.2 ++ [cell])] := by
      rcases hms : (D.filter (fun f => f.period_end == p)).filter
          (fun f => tripleOf f == r.1) with _ | ⟨f1, _ | ⟨f2, tl⟩⟩
      · exact ⟨none, by rw [hms]; rfl⟩
      · exact ⟨some f1.account_value, by rw [hms]; rfl⟩
      · rw [hms] at hlen
        simp at hlen
    obtain ⟨cell, hcell⟩ := hhead
    have hsplit : merge_step D (r :: acc) p =
        [(r.1, r.2 ++ [cell])] ++ merge_step D acc p := by
      unfold merge_step
      rw [List.flatMap_cons]
      rw [hcell]
    constructor
    · rw [hsplit, List.map_append, ih.1]
      rfl
    · intro x hx
      rw [hsplit] at hx
      rcases List.mem_append.mp hx with hx | hx
      · rcases List.mem_singleton.mp hx with rfl
        refine ⟨r, List.mem_cons_self _ _, rfl, ?_⟩
        rw [List.length_append]
        rfl
      · obtain ⟨s, hs, he, hl⟩ := ih.2 x hx
        exact ⟨s, List.mem_cons_of_mem _ hs, he, hl⟩

theorem foldl_merge_skeleton (D : List Fact)
    (hnd : ∀ p : Date, ((D.filter (fun f => f.period_end == p)).map tripleOf).Nodup) :
    ∀ (cols : List Date) (acc : List (RowMeta × List (Option ℚ))) (k : Nat),
      (∀ r ∈ acc, r.2.length = k) →
      ((cols.foldl (merge_step D) acc).map Prod.fst = acc.map Prod.fst ∧
       ∀ r ∈ cols.foldl (merge_step D) acc, r.2.length = k + cols.length)
  | [], _, k, hk => ⟨rfl, by simpa using hk⟩
  | p :: cols, acc, k, hk => by
    have hstep := merge_step_skeleton D p (hnd p) acc
    have hk2 : ∀ r ∈ merge_step D acc p, r.2.length = k + 1 := by
      intro r hr
      obtain ⟨s, hs, _, hlen⟩ := hstep.2 r hr
      rw [hlen, hk s hs]
    have ih := foldl_merge_skeleton D hnd cols (merge_step D acc p) (k + 1) hk2
    refine ⟨?_, ?_⟩
    · rw [List.foldl_cons, ih.1, hstep.1]
    · intro r hr
      rw [List.foldl_cons] at hr
      rw [ih.2 r hr, List.length_cons]
      omega

theorem dedup_stage_pe_pairwise (df0 : List Fact) :
    ((dedup_stage df0).map (fun f => f.period_end)).Pairwise
      (fun a b => dateLeB a b = true) := by
  have hs : (sort_values3 (df0.filter (fun f =>
      f.report_type == ReportType.annual ||
      optEqB (some f.period_end) (dmax (df0.map (·.period_end)))))).Pairwise le3 :=
    insertionSort_pairwise le3_total (fun {_ _ _} => le3_trans) _
  have hsub : (dedup_stage df0).Sublist (sort_values3 (df0.filter (fun f =>
      f.report_type == ReportType.annual ||
      optEqB (some f.period_end) (dmax (df0.map (·.period_end)))))) :=
    dedupKeepLast_sublist year_code _
  have hD : (dedup_stage df0).Pairwise le3 := hs.sublist hsub
  refine List.pairwise_map.mpr (hD.imp ?_)
  intro a b hab
  unfold le3 le3B at hab
  unfold dateLeB
  simp only [Bool.or_eq_true, Bool.and_eq_true] at hab
  rcases hab with h | ⟨h1, _⟩
  · rw [h]
    rfl
  · rw [h1]
    simp

/-- C5 (counterexample): one account code filed under two names across
the retained periods yields two report rows with the same
`account_code`, refuting the claimed one-row-per-code guarantee of
`Finance._make_report` (whose `drop_duplicates()` dedups the whole
metadata triple). -/
theorem C5_duplicate_code_rows :
    ((make_report c5_input).rows.map (fun r => r.1.account_code)) = ["1.01", "1.01"] ∧
    ((make_report c5_input).rows.map (fun r => r.1.account_name)) =
      ["Caixa", "Caixa e Equivalentes"] :=
  ⟨rfl, rfl⟩

/-- C5 (amended): the report has exactly one row per distinct
`(account_name, account_code, account_fixed)` triple of the
deduplicated input (a permutation of the keep-first dedup of the
triples, with no duplicate triple), each row carries exactly one value
cell per column, and the columns are exactly the retained period ends,
without duplicates, in ascending chronological order. -/
theorem C5_rows_one_per_triple_cols_sorted (df0 : List Fact) :
    ((make_report df0).rows.map Prod.fst).Perm
      (dedupKeepFirst id ((dedup_stage df0).map tripleOf)) ∧
    ((make_report df0).rows.map Prod.fst).Nodup ∧
    (∀ r ∈ (make_report df0).rows, r.2.length = (make_report df0).cols.length) ∧
    (make_report df0).cols.Nodup ∧
    (make_report df0).cols.Pairwise (fun a b => dateLeB a b = true) ∧
    (∀ dte : Date, dte ∈ (make_report df0).cols ↔
      dte ∈ (dedup_stage df0).map (fun f => f.period_end)) := by
  have hnd : ∀ p : Date, (((dedup_stage df0).filter
      (fun f => f.period_end == p)).map tripleOf).Nodup := dfy_triple_nodup df0
  have hrows0len : ∀ r ∈ report_rows0 df0, r.2.length = 0 := by
    intro r hr
    obtain ⟨t, _, rfl⟩ := List.mem_map.mp hr
    rfl
  have hfold := foldl_merge_skeleton (dedup_stage df0) hnd (report_cols df0)
    (report_rows0 df0) 0 hrows0len
  have hperm_rows : ((make_report df0).rows).Perm (report_merged df0) :=
    List.perm_insertionSort rowLe _
  have hrows0 : (report_rows0 df0).map Prod.fst =
      dedupKeepFirst id ((dedup_stage df0).map tripleOf) := by
    unfold report_rows0
    rw [List.map_map]
    exact List.map_id _
  have hmergedfst : (report_merged df0).map Prod.fst =
      dedupKeepFirst id ((dedup_stage df0).map tripleOf) := by
    unfold report_merged
    rw [hfold.1, hrows0]
  have hperm : ((make_report df0).rows.map Prod.fst).Perm
      (dedupKeepFirst id ((dedup_stage df0).map tripleOf)) := by
    rw [← hmergedfst]
    exact hperm_rows.map Prod.fst
  refine ⟨hperm, ?_, ?_, ?_, ?_, ?_⟩
  · exact hperm.nodup_iff.mpr (dedupKeepFirst_id_nodup _)
  · intro r hr
    have hr2 : r ∈ report_merged df0 := hperm_rows.mem_iff.mp hr
    have := hfold.2 r hr2
    simpa using this
  · exact dedupKeepFirst_id_nodup _
  · have hpe := dedup_stage_pe_pairwise df0
    have hsub : (report_cols df0).Sublist ((dedup_stage df0).map (fun f => f.period_end)) :=
      dedupKeepFirst_sublist id _
    exact hpe.sublist hsub
  · intro dte
    exact dedupKeepFirst_id_mem _ dte

end BrFin
